import Mathlib

/-!
Verification of the CloudWatch Logs live-tail subsystem
(`packages/core/src/awsService/cloudWatchLogs`): session key derivation,
the live-tail session registry, session stop semantics, the bounded
document mutator, the log-event formatter and the stream-consumption
pipeline.  The development follows the most complete variant of the
tailing command (the one with the log-stream filter submenu,
settings-driven `maxLines`, per-session status-bar items and tab-close
detection), whose pieces live in `tailLogGroup.ts`,
`liveTailSession.ts`, `liveTailSessionRegistry.ts` and
`liveTailLogStreamSubmenu.ts`.

Modelling conventions:
* JavaScript strings become `String`, numbers become `Nat` (all numbers
  involved are non-negative integers: epoch milliseconds, line counts),
  optional fields become `Option`.
* A `vscode.TextDocument` is modelled by its list of lines
  (`List String`); a real document always has at least one line, the
  empty document being `[""]`.  `lineCount` is the length of that list.
* `vscode.Uri` values are modelled by the string they are parsed from;
  `Uri.toString` (and hence `uriToKey`) is the identity on this model.
* A `vscode.WorkspaceEdit` holding inserts at the (pre-edit) end of the
  document plus one delete of a leading range is applied atomically:
  all ranges refer to the pre-edit document, and positions outside the
  document are clamped to the document end, exactly as the editor's
  `validatePosition` does.
-/

/-! ## Log stream filter submenu (`liveTailLogStreamSubmenu.ts`) -/

/-- The `LogStreamFilterType` enum from `liveTailLogStreamSubmenu.ts`:
`MENU = 'menu'`, `PREFIX = 'prefix'`, `SPECIFIC = 'specific'`, `ALL = 'all'`. -/
inductive LogStreamFilterType where
  | MENU
  | PREFIX
  | SPECIFIC
  | ALL
deriving DecidableEq, Repr

/-- The string value carried by each `LogStreamFilterType` enum member. -/
def LogStreamFilterType.value : LogStreamFilterType → String
  | .MENU => "menu"
  | .PREFIX => "prefix"
  | .SPECIFIC => "specific"
  | .ALL => "all"

/-- The `LogStreamFilterResponse` interface: an optional filter string and a
filter type. -/
structure LogStreamFilterResponse where
  filter : Option String
  type : LogStreamFilterType
deriving DecidableEq, Repr

/-! ## Session configuration and key derivation (`liveTailSessionRegistry.ts`) -/

/-- The `LiveTailSessionConfiguration` type from `liveTailSession.ts`. -/
structure LiveTailSessionConfiguration where
  logGroupName : String
  logStreamFilter : Option LogStreamFilterResponse
  logEventFilterPattern : Option String
  region : String
deriving DecidableEq, Repr

/-- Modelled from the spec: the URI scheme constant
`CLOUDWATCH_LOGS_LT_SCHEME` lives in `shared/constants.ts`, which is not part
of the sources at hand.  It is a fixed string token; its exact spelling is
immaterial to every claim below. -/
def CLOUDWATCH_LOGS_LT_SCHEME : String := "aws-cwl-lt"

/-- JavaScript template-literal interpolation of a possibly-`undefined`
string: `undefined` prints as the text `"undefined"`. -/
def jsInterpolate : Option String → String
  | none => "undefined"
  | some s => s

/-- JavaScript truthiness of an optional string: `undefined` and the empty
string are falsy. -/
def jsTruthyString : Option String → Bool
  | none => false
  | some s => !(s == "")

/-- The `createLiveTailURIFromArgs` function from `liveTailSessionRegistry.ts`:

    let uriStr = `${CLOUDWATCH_LOGS_LT_SCHEME}:${sessionData.region}:${sessionData.logGroupName}`
    if (sessionData.logStreamFilter) {
        if (sessionData.logStreamFilter.type != LogStreamFilterType.ALL) {
            uriStr += `:${sessionData.logStreamFilter.type}:${sessionData.logStreamFilter.filter}`
        } else {
            uriStr += `:${sessionData.logStreamFilter.type}`
        }
    }
    uriStr += sessionData.logEventFilterPattern ? `:${sessionData.logEventFilterPattern}` : ''
    return vscode.Uri.parse(uriStr)

`vscode.Uri` is modelled by the parsed string itself. -/
def createLiveTailURIFromArgs (sessionData : LiveTailSessionConfiguration) : String :=
  let uriStr := CLOUDWATCH_LOGS_LT_SCHEME ++ ":" ++ sessionData.region ++ ":"
      ++ sessionData.logGroupName
  let uriStr := uriStr ++
    (match sessionData.logStreamFilter with
     | none => ""
     | some logStreamFilter =>
        if logStreamFilter.type ≠ LogStreamFilterType.ALL then
          ":" ++ logStreamFilter.type.value ++ ":" ++ jsInterpolate logStreamFilter.filter
        else
          ":" ++ logStreamFilter.type.value)
  uriStr ++
    (if jsTruthyString sessionData.logEventFilterPattern then
       ":" ++ jsInterpolate sessionData.logEventFilterPattern
     else "")

/-! ## Session entity (`liveTailSession.ts`) -/

/-- The observable state of a `LiveTailSession`: its derived URI, the
`maxLines` bound, the timing fields, and the resource-release effects of
`stopLiveTailSession` (abort of the cancellation token, destruction of the
CloudWatch client, disposal of the status-bar items), recorded as flags. -/
structure LiveTailSession where
  uri : String
  maxLines : Nat
  startTime : Option Nat
  endTime : Option Nat
  aborted : Bool
  destroyed : Bool
  statusBarDisposed : Bool
deriving DecidableEq, Repr

/-- The `LiveTailSession` constructor: derives the URI from the
configuration and reads `maxLines` from settings
(`settings.get('liveTailMaxEvents', 10000)`), here passed in as the optional
setting value. -/
def LiveTailSession.create (configuration : LiveTailSessionConfiguration)
    (liveTailMaxEvents : Option Nat) : LiveTailSession where
  uri := createLiveTailURIFromArgs configuration
  maxLines := liveTailMaxEvents.getD 10000
  startTime := none
  endTime := none
  aborted := false
  destroyed := false
  statusBarDisposed := false

/-- The `stopLiveTailSession` method, with `Date.now()` passed explicitly:

    public stopLiveTailSession() {
        this.endTime = Date.now()
        this.disposeStatusBarItems()
        this.liveTailClient.abortController.abort()
        this.liveTailClient.cwlClient.destroy()
    }

Note that `endTime` is assigned unconditionally, on every call. -/
def LiveTailSession.stopLiveTailSession (session : LiveTailSession) (now : Nat) :
    LiveTailSession :=
  { session with
    endTime := some now
    statusBarDisposed := true
    aborted := true
    destroyed := true }

/-- The `getLiveTailSessionDuration` method, with `Date.now()` passed
explicitly. -/
def LiveTailSession.getLiveTailSessionDuration (session : LiveTailSession)
    (now : Nat) : Nat :=
  match session.startTime with
  | none => 0
  | some startTime =>
    match session.endTime with
    | none => now - startTime
    | some endTime => endTime - startTime

/-! ## Session registry (`liveTailSessionRegistry.ts`, final variant)

The final registry variant keys its map by `uriToKey(uri) = uri.toString()`;
since URIs are modelled by their strings, `uriToKey` is the identity.  The
`Map<string, LiveTailSession>` is modelled as an association list. -/

/-- The private `uriToKey` helper of `LiveTailSessionRegistry`:
`uri.toString()`, the identity on our string-modelled URIs. -/
def uriToKey (uri : String) : String := uri

/-- A `LiveTailSessionRegistry` is a `Map<string, LiveTailSession>`,
modelled as an association list from keys to sessions. -/
abbrev LiveTailSessionRegistry : Type := List (String × LiveTailSession)

/-- The `doesRegistryContainLiveTailSession` method: `registry.has(uriToKey(uri))`. -/
def doesRegistryContainLiveTailSession (registry : LiveTailSessionRegistry)
    (uri : String) : Bool :=
  registry.any (fun entry => entry.1 == uriToKey uri)

/-- The `registerLiveTailSession` method: throws if the key is already
present, otherwise inserts the session under `uriToKey(session.uri)`. -/
def registerLiveTailSession (registry : LiveTailSessionRegistry)
    (session : LiveTailSession) : Except String LiveTailSessionRegistry :=
  if doesRegistryContainLiveTailSession registry session.uri then
    Except.error ("There is already a LiveTail session registered with uri: " ++ session.uri)
  else
    Except.ok ((uriToKey session.uri, session) :: registry)

/-- The `removeLiveTailSessionFromRegistry` method:
`registry.delete(uriToKey(uri))`. -/
def removeLiveTailSessionFromRegistry (registry : LiveTailSessionRegistry)
    (uri : String) : LiveTailSessionRegistry :=
  registry.filter (fun entry => !(entry.1 == uriToKey uri))

/-- The `getLiveTailSessionFromUri` method: throws when no session is
registered under the key. -/
def getLiveTailSessionFromUri (registry : LiveTailSessionRegistry)
    (uri : String) : Except String LiveTailSession :=
  match registry.find? (fun entry => entry.1 == uriToKey uri) with
  | none => Except.error ("No LiveTail session registered for uri: " ++ uri ++ " found.")
  | some entry => Except.ok entry.2

/-- Key uniqueness of a registry: no two entries share a key (`Map` semantics). -/
def registryKeysNodup (registry : LiveTailSessionRegistry) : Prop :=
  (registry.map Prod.fst).Nodup

/-! ## The text document model

A `vscode.TextDocument` is its list of lines: the text of the document is
the lines joined by `"\n"`.  A real document always has at least one line
(the empty document is `[""]`); every operation below preserves that.
`textDocument.lineCount` is the length of the list. -/

/-- Lines of a piece of text, split at every `'\n'`, as in the editor's
line model (a trailing newline yields a trailing empty line).  Defined on
the character list. -/
def splitLinesList : List Char → List (List Char)
  | [] => [[]]
  | c :: cs =>
    if c = '\n' then [] :: splitLinesList cs
    else
      match splitLinesList cs with
      | [] => [[c]]
      | l :: ls => (c :: l) :: ls

/-- Lines of a string, split at every `'\n'`. -/
def splitLines (s : String) : List String :=
  (splitLinesList s.data).map (fun l => String.mk l)

/-- The document's `lineCount`. -/
def lineCount (textDocument : List String) : Nat := textDocument.length

/-- The empty document, as the editor represents it. -/
def emptyDocument : List String := [""]

/-- Effect on the line list of one
`edit.insert(uri, new vscode.Position(textDocument.lineCount, 0), s)`:
the position lies one past the last line, so the editor clamps it to the
end of the document, and the inserted text is spliced onto the final
line, adding one further line per `'\n'` it contains. -/
def insertEventAtEnd (textDocument : List String) (s : String) : List String :=
  match splitLines s with
  | [] => textDocument
  | l :: ls => textDocument.dropLast ++ ((textDocument.getLastD "" ++ l) :: ls)

/-- Effect on the line list of
`edit.delete(uri, new vscode.Range(new Position(0, 0), new Position(t, 0)))`:
when `t < lineCount` this removes the first `t` whole lines; when
`t ≥ lineCount` the end position is clamped to the end of the document, so
the delete wipes the whole document down to the editor's minimal `[""]`. -/
def deletePrefixLines (textDocument : List String) (t : Nat) : List String :=
  if t < textDocument.length then textDocument.drop t else [""]

/-- The `trimOldestLines` function: adds to the pending edit a delete of
the range from `(0,0)` to `(numLinesToTrim, 0)` where
`numLinesToTrim = textDocument.lineCount + numNewLines - maxLines`.  Because
every range of a `WorkspaceEdit` refers to the pre-edit document, the delete
is modelled as acting on the current line list. -/
def trimOldestLines (numNewLines : Nat) (textDocument : List String)
    (maxLines : Nat) : List String :=
  deletePrefixLines textDocument (textDocument.length + numNewLines - maxLines)

/-- The `updateTextDocumentWithNewLogEvents` function: one atomic
`WorkspaceEdit` holding an insert of every formatted event at the pre-edit
end of the document, plus — when
`textDocument.lineCount + formattedLogEvents.length > maxLines` — the
`trimOldestLines` delete of a leading range of the pre-edit document.  All
ranges refer to the pre-edit document: the delete removes only lines that
existed before the edit, and the inserts land after the remaining text, in
the order they were added to the edit. -/
def updateTextDocumentWithNewLogEvents (formattedLogEvents : List String)
    (textDocument : List String) (maxLines : Nat) : List String :=
  let base :=
    if textDocument.length + formattedLogEvents.length > maxLines then
      trimOldestLines formattedLogEvents.length textDocument maxLines
    else textDocument
  formattedLogEvents.foldl insertEventAtEnd base

/-- The `clearDocument` function: deletes from `(0,0)` to `(lineCount, 0)`;
the end position is clamped to the document end, so the whole document is
wiped. -/
def clearDocument (textDocument : List String) : List String :=
  deletePrefixLines textDocument textDocument.length

/-! ## Log event formatting (`formatLogEvent`) -/

/-- The `LiveTailSessionLogEvent` shape from the CloudWatch Logs SDK:
`{timestamp?: epoch-millis, message?: string}`. -/
structure LiveTailSessionLogEvent where
  timestamp : Option Nat
  message : Option String
deriving DecidableEq, Repr

/-- JavaScript truthiness of an optional number: `undefined` and `0` are
falsy. -/
def jsTruthyNumber : Option Nat → Bool
  | none => false
  | some n => !(n == 0)

/-- JavaScript `String.prototype.endsWith`. -/
def jsEndsWith (s suffixStr : String) : Bool :=
  suffixStr.data.isSuffixOf s.data

/-- Two-digit rendering of a time-of-day component. -/
def pad2 (n : Nat) : String :=
  if n < 10 then "0" ++ toString n else toString n

/-- The rendering of
`new Date(ms).toLocaleTimeString('en', {timeStyle: 'medium', hour12: false, timeZone: 'UTC'})`:
hours, minutes and seconds of the UTC time-of-day, each two digits, in
24-hour form, separated by colons. -/
def toLocaleTimeStringUTC (ms : Nat) : String :=
  let seconds := ms / 1000
  pad2 (seconds / 3600 % 24) ++ ":" ++ pad2 (seconds / 60 % 60) ++ ":" ++ pad2 (seconds % 60)

/-- The `formatLogEvent` function:

    if (!logEvent.timestamp || !logEvent.message) { return '' }
    const timestamp = new Date(logEvent.timestamp).toLocaleTimeString('en',
        { timeStyle: 'medium', hour12: false, timeZone: 'UTC' })
    let line = timestamp.concat('\t', logEvent.message)
    if (!line.endsWith('\n')) { line = line.concat('\n') }
    return line
-/
def formatLogEvent (logEvent : LiveTailSessionLogEvent) : String :=
  if !jsTruthyNumber logEvent.timestamp || !jsTruthyString logEvent.message then ""
  else
    let timestamp := toLocaleTimeStringUTC (logEvent.timestamp.getD 0)
    let line := timestamp ++ "\t" ++ logEvent.message.getD ""
    if !jsEndsWith line "\n" then line ++ "\n" else line

/-! ## Editors, scrolling (`tailLogGroup.ts`) -/

/-- A `vscode.Position`: zero-based line and character. -/
structure Position where
  line : Nat
  character : Nat
deriving DecidableEq, Repr

/-- Position order: `isBeforeOrEqual`. -/
def Position.isBeforeOrEqual (a b : Position) : Bool :=
  a.line < b.line || (a.line == b.line && a.character ≤ b.character)

/-- A `vscode.Range`: start and end positions. -/
structure Range where
  start : Position
  stop : Position
deriving DecidableEq, Repr

/-- `Range.contains(position)`: the position lies between start and end. -/
def Range.containsPos (r : Range) (p : Position) : Bool :=
  r.start.isBeforeOrEqual p && p.isBeforeOrEqual r.stop

/-- A visible `vscode.TextEditor`: the identity of the document it shows
and its first visible range (`visibleRanges[0]`). -/
structure TextEditor where
  document : Nat
  visibleRange : Range
deriving DecidableEq, Repr

/-- The `shouldScrollTextEditor` function: the editor's `visibleRanges[0]`
contains `new Position(textDocument.lineCount - 1, 0)`. -/
def shouldScrollTextEditor (textDocument : List String) (textEditor : TextEditor) : Bool :=
  textEditor.visibleRange.containsPos ⟨textDocument.length - 1, 0⟩

/-- The `getVisibleEditorsForSession` function: the visible editors whose
document is the session's document. -/
def getVisibleEditorsForSession (visibleTextEditors : List TextEditor)
    (textDocument : Nat) : List TextEditor :=
  visibleTextEditors.filter (fun editor => editor.document == textDocument)

/-- The `getTextEditorsToScroll` function: visible editors of the session
document whose visible range holds the document's current last line. -/
def getTextEditorsToScroll (textDocumentLines : List String)
    (visibleTextEditors : List TextEditor) (textDocument : Nat) : List TextEditor :=
  (getVisibleEditorsForSession visibleTextEditors textDocument).filter
    (shouldScrollTextEditor textDocumentLines)

/-- The range revealed by `scrollTextEditorToBottom`: the single position at
line `Math.max(lineCount - 2, 0)` (truncated subtraction equals the
`Math.max` with 0). -/
def scrollTextEditorToBottom (textDocument : List String) : Range :=
  ⟨⟨textDocument.length - 2, 0⟩, ⟨textDocument.length - 2, 0⟩⟩

/-! ## Stream ingestion (`handleLiveTailResponse`) -/

/-- The `sessionStart` frame payload. -/
structure LiveTailSessionStart where
  logGroupIdentifiers : List String
deriving DecidableEq, Repr

/-- The session metadata of a `sessionUpdate` frame. -/
structure LiveTailSessionMetadata where
  sampled : Bool
deriving DecidableEq, Repr

/-- The `sessionUpdate` frame payload. -/
structure LiveTailSessionUpdate where
  sessionMetadata : Option LiveTailSessionMetadata
  sessionResults : List LiveTailSessionLogEvent
deriving DecidableEq, Repr

/-- One frame of the `StartLiveTailResponseStream`: either field may be
absent; a frame with both absent is the "unknown event type" case. -/
structure StartLiveTailResponseStream where
  sessionStart : Option LiveTailSessionStart
  sessionUpdate : Option LiveTailSessionUpdate
deriving DecidableEq, Repr

/-- The body of the `for await` loop of `handleLiveTailResponse`, acting on
the document lines: a `sessionStart` frame is only logged, a
`sessionUpdate` frame is formatted and — when the formatted batch is
non-empty — applied via `updateTextDocumentWithNewLogEvents`, any other
frame logs an error and changes nothing. -/
def handleStreamEvent (event : StartLiveTailResponseStream)
    (textDocument : List String) (maxLines : Nat) : List String :=
  match event.sessionStart with
  | some _ => textDocument
  | none =>
    match event.sessionUpdate with
    | some sessionUpdate =>
      let formattedLogEvents := sessionUpdate.sessionResults.map formatLogEvent
      if formattedLogEvents.length ≠ 0 then
        updateTextDocumentWithNewLogEvents formattedLogEvents textDocument maxLines
      else textDocument
    | none => textDocument

/-- The scroll side of the loop body for a `sessionUpdate` frame (lines
211–217 of the final `tailLogGroup.ts`): when the formatted batch is
non-empty, the editors to scroll are computed against the PRE-mutation
document, the document is mutated, and each editor chosen gets a
`revealRange` of `scrollTextEditorToBottom` on the post-mutation document;
every other editor gets no reveal.  Returns the new document together
with, per visible editor, the range revealed in it (if any). -/
def handleSessionUpdateScroll (formattedLogEvents : List String)
    (textDocument : List String) (maxLines : Nat)
    (visibleTextEditors : List TextEditor) (documentId : Nat) :
    List String × List (TextEditor × Option Range) :=
  if formattedLogEvents.length ≠ 0 then
    let editorsToScroll := getTextEditorsToScroll textDocument visibleTextEditors documentId
    let newDocument := updateTextDocumentWithNewLogEvents formattedLogEvents textDocument maxLines
    (newDocument,
      visibleTextEditors.map (fun editor =>
        (editor,
          if editor ∈ editorsToScroll then some (scrollTextEditorToBottom newDocument)
          else none)))
  else
    (textDocument, visibleTextEditors.map (fun editor => (editor, none)))

/-- One pull from the response stream either yields a frame or raises. -/
def StreamPull : Type := Except String StartLiveTailResponseStream

/-- The consumption loop of `handleLiveTailResponse`, on the document
lines: frames are processed strictly in order; the first pull that raises
ends the iteration — the `catch` logs `'Caught on-stream exception: ' + err`
and the function returns normally.  The result is the final document
together with the warning logged, if any. -/
def handleLiveTailResponse (responseStream : List StreamPull)
    (textDocument : List String) (maxLines : Nat) : List String × Option String :=
  match responseStream with
  | [] => (textDocument, none)
  | Except.error err :: _ =>
    (textDocument, some ("Caught on-stream exception: " ++ err))
  | Except.ok event :: rest =>
    handleLiveTailResponse rest (handleStreamEvent event textDocument maxLines) maxLines

/-! ## Derived definitions used by the verification -/

/-- A formatted event string that renders as exactly one display line: its
line split has a content line followed by the trailing empty line (it ends
with the terminating newline and contains no interior newline), as
`formatLogEvent` produces for any message without embedded newlines. -/
def isSingleDisplayLine (s : String) : Prop := (splitLines s).length = 2

instance (s : String) : Decidable (isSingleDisplayLine s) :=
  inferInstanceAs (Decidable ((splitLines s).length = 2))

/-- Successive application of `sessionUpdate` batches through
`updateTextDocumentWithNewLogEvents`. -/
def applyBatches (batches : List (List String)) (textDocument : List String)
    (maxLines : Nat) : List String :=
  batches.foldl
    (fun doc batch => updateTextDocumentWithNewLogEvents batch doc maxLines)
    textDocument

/-- A string free of the `':'` separator that `createLiveTailURIFromArgs`
joins components with. -/
def colonFree (s : String) : Prop := ':' ∉ s.data

instance (s : String) : Decidable (colonFree s) :=
  inferInstanceAs (Decidable (':' ∉ s.data))

/-- The characters the stream-filter clause contributes to the URI. -/
def filterTailData (f : LogStreamFilterResponse) : List Char :=
  if f.type ≠ LogStreamFilterType.ALL then
    ':' :: (f.type.value.data ++ ':' :: (jsInterpolate f.filter).data)
  else ':' :: f.type.value.data

/-- The characters the event-filter-pattern clause contributes to the URI. -/
def patternTailData (p : Option String) : List Char :=
  if jsTruthyString p then ':' :: (jsInterpolate p).data else []

/-- A configuration's pattern component, as constrained below: absent, or
non-empty and colon-free. -/
def goodPattern (p : Option String) : Prop :=
  p = none ∨ ∃ s, p = some s ∧ s ≠ "" ∧ colonFree s

/-- The domain on which key derivation is injective: the stream filter is
present (the wizard always supplies one), each textual component is free of
the `':'` separator, a present stream-filter value is required exactly for
the non-`All` types, and the pattern is absent or non-empty (the empty
pattern is falsy and indistinguishable from an absent one). -/
def GoodConfiguration (c : LiveTailSessionConfiguration) : Prop :=
  colonFree c.region ∧ colonFree c.logGroupName ∧
  (∃ f, c.logStreamFilter = some f ∧
    ((f.type = LogStreamFilterType.ALL ∧ f.filter = none) ∨
     (f.type ≠ LogStreamFilterType.ALL ∧ ∃ v, f.filter = some v ∧ colonFree v))) ∧
  goodPattern c.logEventFilterPattern

/-- The characters following the filter-type token in the derived key. -/
def filterRestData (f : LogStreamFilterResponse) (pat : List Char) : List Char :=
  if f.type ≠ LogStreamFilterType.ALL then
    ':' :: ((jsInterpolate f.filter).data ++ pat)
  else pat

/-! ## Helper lemmas -/

theorem singleton_suffix_iff_getLast? (c : Char) (l : List Char) :
    [c] <:+ l ↔ l.getLast? = some c := by
  constructor
  · rintro ⟨t, rfl⟩
    simp
  · intro h
    induction l using List.reverseRecOn with
    | nil => simp at h
    | append_singleton l' d _ =>
      simp at h
      exact ⟨l', by rw [h]⟩

theorem jsEndsWith_newline_iff (s : String) :
    jsEndsWith s "\n" = true ↔ s.data.getLast? = some '\n' := by
  have hdata : ("\n" : String).data = ['\n'] := rfl
  rw [jsEndsWith, hdata, List.isSuffixOf_iff_suffix, singleton_suffix_iff_getLast?]

theorem jsEndsWith_newline_append (a msg : String) (h : msg ≠ "") :
    jsEndsWith (a ++ msg) "\n" = jsEndsWith msg "\n" := by
  have hne : msg.data ≠ [] := by
    intro hnil
    apply h
    cases msg
    simp at hnil
    rw [hnil]
  have h1 := jsEndsWith_newline_iff (a ++ msg)
  have h2 := jsEndsWith_newline_iff msg
  have hlast : (a ++ msg).data.getLast? = msg.data.getLast? := by
    rw [String.data_append]
    exact List.getLast?_append_of_ne_nil _ hne
  rw [hlast] at h1
  cases hb : jsEndsWith (a ++ msg) "\n" <;> cases hc : jsEndsWith msg "\n" <;>
    simp [hb, hc] at h1 h2 ⊢ <;> simp [h1, h2] at *

/-! ## Claim C6: formatLogEvent output shape -/

/-- C6: `formatLogEvent` maps a record with both timestamp and message
present (and truthy) to the UTC 24-hour `HH:MM:SS` rendering of the
timestamp, a TAB, and the message, newline-terminated exactly when the
message does not already end with a newline; the record
`{timestamp: 876830400000, message: "m"}` formats to `"12:00:00\tm\n"`;
and a record lacking a timestamp or a message formats to the empty
string. -/
theorem formatLogEvent_spec :
    (∀ logEvent : LiveTailSessionLogEvent,
        logEvent.timestamp = none ∨ logEvent.message = none →
        formatLogEvent logEvent = "")
    ∧ formatLogEvent ⟨some 876830400000, some "m"⟩ = "12:00:00\tm\n"
    ∧ (∀ (t : Nat) (msg : String), t ≠ 0 → msg ≠ "" →
        formatLogEvent ⟨some t, some msg⟩ =
          (toLocaleTimeStringUTC t ++ "\t" ++ msg) ++
            (if jsEndsWith msg "\n" then "" else "\n")) := by
  refine ⟨?_, by decide, ?_⟩
  · intro logEvent h
    rcases h with h | h <;> simp [formatLogEvent, h, jsTruthyNumber, jsTruthyString]
  · intro t msg ht hmsg
    have hline : jsEndsWith (toLocaleTimeStringUTC t ++ "\t" ++ msg) "\n" =
        jsEndsWith msg "\n" := by
      exact jsEndsWith_newline_append (toLocaleTimeStringUTC t ++ "\t") msg hmsg
    simp only [formatLogEvent, jsTruthyNumber, jsTruthyString, Option.getD_some, beq_iff_eq]
    rw [if_neg (by simp [ht, hmsg])]
    simp only [hline]
    cases h : jsEndsWith msg "\n" <;> simp

/-- Witness for C6 at concrete inputs: a record missing its message
formats to the empty string, and the two newline-termination modes. -/
theorem formatLogEvent_spec_witness :
    formatLogEvent ⟨some 876830400000, none⟩ = ""
    ∧ formatLogEvent ⟨some 876830400000, some "m"⟩ = "12:00:00\tm\n"
    ∧ formatLogEvent ⟨some 876830400000, some "m\n"⟩ = "12:00:00\tm\n" :=
  ⟨formatLogEvent_spec.1 ⟨some 876830400000, none⟩ (Or.inr rfl),
   formatLogEvent_spec.2.1,
   by
    have h := formatLogEvent_spec.2.2 876830400000 "m\n" (by decide) (by decide)
    rw [h]; decide⟩

/-! ## Claim C10: present-but-falsy fields are dropped -/

/-- C10: `formatLogEvent` treats a present-but-falsy field like a missing
one: a record whose timestamp is `0` or whose message is `""` formats to
the empty string. -/
theorem formatLogEvent_falsy_fields (logEvent : LiveTailSessionLogEvent)
    (h : logEvent.timestamp = some 0 ∨ logEvent.message = some "") :
    formatLogEvent logEvent = "" := by
  rcases h with h | h <;> simp [formatLogEvent, h, jsTruthyNumber, jsTruthyString]

/-- Witness for C10: both falsy-field shapes, at concrete records carrying
a present timestamp and a present message. -/
theorem formatLogEvent_falsy_fields_witness :
    formatLogEvent ⟨some 0, some "hello"⟩ = ""
    ∧ formatLogEvent ⟨some 876830400000, some ""⟩ = "" :=
  ⟨formatLogEvent_falsy_fields ⟨some 0, some "hello"⟩ (Or.inl rfl),
   formatLogEvent_falsy_fields ⟨some 876830400000, some ""⟩ (Or.inr rfl)⟩

/-! ## Claim C8: frames without displayable content are no-ops -/

/-- C8: a `sessionStart` frame, a frame matching neither `sessionStart` nor
`sessionUpdate`, and a `sessionUpdate` whose batch of formatted lines is
empty each leave the document untouched, and in each case the consumption
loop simply proceeds to the remaining frames. -/
theorem noop_frames_leave_document_unchanged :
    ∀ (textDocument : List String) (maxLines : Nat) (rest : List StreamPull),
      (∀ (start : LiveTailSessionStart) (u : Option LiveTailSessionUpdate),
        handleStreamEvent ⟨some start, u⟩ textDocument maxLines = textDocument ∧
        handleLiveTailResponse (Except.ok ⟨some start, u⟩ :: rest) textDocument maxLines =
          handleLiveTailResponse rest textDocument maxLines)
      ∧ (handleStreamEvent ⟨none, none⟩ textDocument maxLines = textDocument ∧
        handleLiveTailResponse (Except.ok ⟨none, none⟩ :: rest) textDocument maxLines =
          handleLiveTailResponse rest textDocument maxLines)
      ∧ (∀ meta : Option LiveTailSessionMetadata,
        handleStreamEvent ⟨none, some ⟨meta, []⟩⟩ textDocument maxLines = textDocument ∧
        handleLiveTailResponse (Except.ok ⟨none, some ⟨meta, []⟩⟩ :: rest) textDocument maxLines =
          handleLiveTailResponse rest textDocument maxLines) := by
  intro textDocument maxLines rest
  refine ⟨fun start u => ⟨rfl, ?_⟩, ⟨rfl, ?_⟩, fun meta => ⟨rfl, ?_⟩⟩ <;>
    simp [handleLiveTailResponse, handleStreamEvent]

/-! ## Claim C9: the consumption loop swallows stream exceptions -/

/-- C9: when the response stream yields some frames and then a pull raises,
`handleLiveTailResponse` processes exactly the frames before the failure,
logs the `'Caught on-stream exception: '` warning, and returns normally;
nothing after the failing pull is processed and the exception is not
rethrown (the result is an ordinary value, not an error). -/
theorem handleLiveTailResponse_swallows_stream_errors :
    ∀ (okFrames : List StartLiveTailResponseStream) (err : String)
      (post : List StreamPull) (textDocument : List String) (maxLines : Nat),
      handleLiveTailResponse (okFrames.map Except.ok ++ Except.error err :: post)
          textDocument maxLines =
        (okFrames.foldl (fun doc event => handleStreamEvent event doc maxLines) textDocument,
         some ("Caught on-stream exception: " ++ err)) := by
  intro okFrames
  induction okFrames with
  | nil => intro err post textDocument maxLines; rfl
  | cons event okFrames ih =>
    intro err post textDocument maxLines
    simp only [List.map_cons, List.cons_append, List.foldl_cons, handleLiveTailResponse]
    exact ih err post (handleStreamEvent event textDocument maxLines) maxLines

/-! ## Claim C4: stop is NOT first-call-wins idempotent -/

/-- C4 counterexample: `stopLiveTailSession` assigns `endTime = Date.now()`
unconditionally, so a second call at a later time does NOT retain the first
call's `endTime`: stopping the session at time 1 and again at time 2 leaves
a different observable state (a different `endTime`, hence a different
reported session duration) than stopping it once at time 1. -/
theorem stopLiveTailSession_second_call_changes_endTime :
    ((LiveTailSession.create ⟨"group", some ⟨none, .ALL⟩, none, "region"⟩ none
        |>.stopLiveTailSession 1).stopLiveTailSession 2).endTime ≠
      ((LiveTailSession.create ⟨"group", some ⟨none, .ALL⟩, none, "region"⟩ none
        |>.stopLiveTailSession 1)).endTime := by
  decide

/-- C4 amended: repeated calls to `stopLiveTailSession` never fail and are
absorbed by the LAST call — any chain of stops equals a single stop at the
final call's time.  In particular stop is idempotent at a fixed timestamp,
and every call (re)sets the same release flags: token aborted, client
destroyed, status-bar items disposed, with `endTime` recording the most
recent call, not the first. -/
theorem stopLiveTailSession_last_call_wins :
    (∀ (session : LiveTailSession) (times : List Nat) (t : Nat),
      (times ++ [t]).foldl LiveTailSession.stopLiveTailSession session =
        session.stopLiveTailSession t)
    ∧ (∀ (session : LiveTailSession) (t : Nat),
      (session.stopLiveTailSession t).stopLiveTailSession t =
        session.stopLiveTailSession t)
    ∧ (∀ (session : LiveTailSession) (t : Nat),
      (session.stopLiveTailSession t).endTime = some t ∧
      (session.stopLiveTailSession t).aborted = true ∧
      (session.stopLiveTailSession t).destroyed = true ∧
      (session.stopLiveTailSession t).statusBarDisposed = true) := by
  have habsorb : ∀ (session : LiveTailSession) (a b : Nat),
      (session.stopLiveTailSession a).stopLiveTailSession b =
        session.stopLiveTailSession b := by
    intro session a b; rfl
  refine ⟨?_, fun session t => habsorb session t t, fun session t => ⟨rfl, rfl, rfl, rfl⟩⟩
  intro session times
  induction times generalizing session with
  | nil => intro t; rfl
  | cons a times ih =>
    intro t
    simp only [List.cons_append, List.foldl_cons]
    exact ih (session.stopLiveTailSession a) t

/-! ## Claim C2: at most one live session per resource key -/

/-- C2: for two sessions with equal derived keys, registering the second
while the first is registered fails with the duplicate-session error (the
registry, being passed along functionally, is unchanged by the failure);
after removing the first, registering the second succeeds.  Moreover
`register` and `remove` preserve key-uniqueness of the registry, so no
reachable registry ever holds two sessions under one key. -/
theorem registry_at_most_one_session_per_key :
    (∀ (registry registry1 : LiveTailSessionRegistry) (s1 s2 : LiveTailSession),
      uriToKey s1.uri = uriToKey s2.uri →
      registerLiveTailSession registry s1 = Except.ok registry1 →
      (∃ msg, registerLiveTailSession registry1 s2 = Except.error msg) ∧
      (∃ registry2,
        registerLiveTailSession (removeLiveTailSessionFromRegistry registry1 s1.uri) s2 =
          Except.ok registry2))
    ∧ (∀ (registry registry' : LiveTailSessionRegistry) (s : LiveTailSession),
      registryKeysNodup registry →
      registerLiveTailSession registry s = Except.ok registry' →
      registryKeysNodup registry')
    ∧ (∀ (registry : LiveTailSessionRegistry) (uri : String),
      registryKeysNodup registry →
      registryKeysNodup (removeLiveTailSessionFromRegistry registry uri)) := by
  have hok : ∀ (registry registry' : LiveTailSessionRegistry) (s : LiveTailSession),
      registerLiveTailSession registry s = Except.ok registry' →
      doesRegistryContainLiveTailSession registry s.uri = false ∧
        registry' = (uriToKey s.uri, s) :: registry := by
    intro registry registry' s h
    by_cases hc : doesRegistryContainLiveTailSession registry s.uri
    · simp [registerLiveTailSession, hc] at h
    · simp [registerLiveTailSession, hc] at h
      exact ⟨by simp [hc], h.symm⟩
  refine ⟨?_, ?_, ?_⟩
  · intro registry registry1 s1 s2 hkey h1
    obtain ⟨-, rfl⟩ := hok registry registry1 s1 h1
    constructor
    · have hdup : doesRegistryContainLiveTailSession
          ((uriToKey s1.uri, s1) :: registry) s2.uri = true := by
        simp [doesRegistryContainLiveTailSession, hkey]
      exact ⟨"There is already a LiveTail session registered with uri: " ++ s2.uri,
        by simp [registerLiveTailSession, hdup]⟩
    · have hgone : doesRegistryContainLiveTailSession
          (removeLiveTailSessionFromRegistry ((uriToKey s1.uri, s1) :: registry) s1.uri)
            s2.uri = false := by
        simp only [doesRegistryContainLiveTailSession, removeLiveTailSessionFromRegistry,
          List.any_eq_false]
        intro entry hentry
        rw [List.mem_filter] at hentry
        rw [← hkey]
        simpa using hentry.2
      exact ⟨(uriToKey s2.uri, s2) ::
          removeLiveTailSessionFromRegistry ((uriToKey s1.uri, s1) :: registry) s1.uri,
        by simp [registerLiveTailSession, hgone]⟩
  · intro registry registry' s hnodup h
    obtain ⟨hc, rfl⟩ := hok registry registry' s h
    refine List.Nodup.cons ?_ hnodup
    simp only [doesRegistryContainLiveTailSession] at hc
    intro hmem
    rw [List.mem_map] at hmem
    obtain ⟨entry, hentry, hfst⟩ := hmem
    have := List.any_eq_false.mp hc entry hentry
    simp [hfst] at this
  · intro registry uri hnodup
    exact hnodup.sublist ((List.filter_sublist registry).map Prod.fst)

/-- Witness for C2: registering a session into the empty registry succeeds;
re-registering an equal-key session fails; after removal it succeeds. -/
theorem registry_at_most_one_session_per_key_witness :
    (∃ msg,
      registerLiveTailSession
        [(uriToKey (LiveTailSession.create ⟨"g", some ⟨none, .ALL⟩, none, "r"⟩ none).uri,
          LiveTailSession.create ⟨"g", some ⟨none, .ALL⟩, none, "r"⟩ none)]
        (LiveTailSession.create ⟨"g", some ⟨none, .ALL⟩, none, "r"⟩ none) =
        Except.error msg)
    ∧ (∃ registry2,
      registerLiveTailSession
        (removeLiveTailSessionFromRegistry
          [(uriToKey (LiveTailSession.create ⟨"g", some ⟨none, .ALL⟩, none, "r"⟩ none).uri,
            LiveTailSession.create ⟨"g", some ⟨none, .ALL⟩, none, "r"⟩ none)]
          (LiveTailSession.create ⟨"g", some ⟨none, .ALL⟩, none, "r"⟩ none).uri)
        (LiveTailSession.create ⟨"g", some ⟨none, .ALL⟩, none, "r"⟩ none) =
        Except.ok registry2) :=
  registry_at_most_one_session_per_key.1 []
    [(uriToKey (LiveTailSession.create ⟨"g", some ⟨none, .ALL⟩, none, "r"⟩ none).uri,
      LiveTailSession.create ⟨"g", some ⟨none, .ALL⟩, none, "r"⟩ none)]
    (LiveTailSession.create ⟨"g", some ⟨none, .ALL⟩, none, "r"⟩ none)
    (LiveTailSession.create ⟨"g", some ⟨none, .ALL⟩, none, "r"⟩ none)
    rfl rfl

/-! ## Document mutator lemmas -/

theorem splitLinesList_ne_nil (cs : List Char) : splitLinesList cs ≠ [] := by
  induction cs with
  | nil => simp [splitLinesList]
  | cons c cs ih =>
    simp only [splitLinesList]
    split
    · simp
    · split <;> simp

theorem splitLines_ne_nil (s : String) : splitLines s ≠ [] := by
  simp [splitLines, List.map_eq_nil_iff, splitLinesList_ne_nil]

theorem insertEventAtEnd_ne_nil (d : List String) (s : String) :
    insertEventAtEnd d s ≠ [] := by
  unfold insertEventAtEnd
  cases h : splitLines s with
  | nil => exact absurd h (splitLines_ne_nil s)
  | cons l ls => simp

theorem insertEventAtEnd_length (d : List String) (s : String) (hd : d ≠ [])
    (hs : isSingleDisplayLine s) : (insertEventAtEnd d s).length = d.length + 1 := by
  unfold insertEventAtEnd
  cases h : splitLines s with
  | nil => exact absurd h (splitLines_ne_nil s)
  | cons l ls =>
    rw [isSingleDisplayLine, h] at hs
    simp only [List.length_cons] at hs
    have hpos : 0 < d.length := List.length_pos.mpr hd
    simp only [List.length_append, List.length_dropLast, List.length_cons]
    omega

theorem foldl_insertEventAtEnd_spec (evs : List String) (d : List String) (hd : d ≠ [])
    (hs : ∀ s ∈ evs, isSingleDisplayLine s) :
    (evs.foldl insertEventAtEnd d).length = d.length + evs.length ∧
      evs.foldl insertEventAtEnd d ≠ [] := by
  induction evs generalizing d with
  | nil => exact ⟨by simp, hd⟩
  | cons s evs ih =>
    have h1 := insertEventAtEnd_length d s hd (hs s (by simp))
    have h2 := insertEventAtEnd_ne_nil d s
    have h3 := ih (insertEventAtEnd d s) h2 (fun x hx => hs x (List.mem_cons_of_mem _ hx))
    refine ⟨?_, by simpa using h3.2⟩
    simp only [List.foldl_cons, List.length_cons]
    rw [h3.1, h1]
    omega

theorem updateTextDocument_bound (evs d : List String) (m : Nat) (hd : d ≠ [])
    (hb : evs.length < m)
    (hs : ∀ s ∈ evs, isSingleDisplayLine s) :
    (updateTextDocumentWithNewLogEvents evs d m).length ≤ m ∧
      updateTextDocumentWithNewLogEvents evs d m ≠ [] := by
  unfold updateTextDocumentWithNewLogEvents trimOldestLines deletePrefixLines
  by_cases hcase : d.length + evs.length > m
  · rw [if_pos hcase]
    by_cases ht : d.length + evs.length - m < d.length
    · rw [if_pos ht]
      have hdrop_ne : d.drop (d.length + evs.length - m) ≠ [] := by
        rw [← List.length_pos, List.length_drop]
        omega
      have h := foldl_insertEventAtEnd_spec evs _ hdrop_ne hs
      refine ⟨?_, h.2⟩
      rw [h.1, List.length_drop]
      omega
    · omega
  · rw [if_neg hcase]
    have h := foldl_insertEventAtEnd_spec evs d hd hs
    refine ⟨?_, h.2⟩
    simp only [h.1]
    omega

/-! ## Claim C1: the bounded-buffer invariant -/

/-- C1 counterexample: a single batch of 3 one-line events applied to the
empty document with `maxLines = 2` leaves a document of 4 lines.  The trim
range refers to the pre-edit document (here the single empty line), so the
delete cannot evict lines that only exist after the insert, and the
claimed bound `lineCount ≤ maxLines` fails whenever one batch alone
carries at least `maxLines` lines. -/
theorem boundedBuffer_cex :
    ¬ lineCount (applyBatches [["a\n", "b\n", "c\n"]] emptyDocument 2) ≤ 2 := by
  decide

/-- C1 amended: the bounded-buffer invariant holds for every sequence of
batches in which each batch consists of single-display-line events and
carries fewer than `maxLines` of them: starting from the empty document,
after every application the line count is at most `maxLines`. -/
theorem boundedBuffer_invariant (batches : List (List String)) (maxLines : Nat)
    (hm : 1 ≤ maxLines)
    (hb : ∀ batch ∈ batches, batch.length < maxLines ∧
      ∀ s ∈ batch, isSingleDisplayLine s) :
    lineCount (applyBatches batches emptyDocument maxLines) ≤ maxLines := by
  suffices h : ∀ d : List String, d ≠ [] → d.length ≤ maxLines →
      lineCount (applyBatches batches d maxLines) ≤ maxLines ∧
        applyBatches batches d maxLines ≠ [] by
    exact (h emptyDocument (by simp [emptyDocument]) (by simpa [emptyDocument] using hm)).1
  induction batches with
  | nil => exact fun d hd hlen => ⟨hlen, hd⟩
  | cons batch batches ih =>
    intro d hd hlen
    have hbatch := hb batch (by simp)
    have hstep := updateTextDocument_bound batch d maxLines hd hbatch.1 hbatch.2
    have hrest := ih (fun b hbm => hb b (List.mem_cons_of_mem _ hbm))
      (updateTextDocumentWithNewLogEvents batch d maxLines) hstep.2 hstep.1
    simpa [applyBatches] using hrest

/-- Witness for C1 amended: two single-event batches under
`maxLines = 2` keep the line count at the bound. -/
theorem boundedBuffer_invariant_witness :
    lineCount (applyBatches [["a\n"], ["b\n"]] emptyDocument 2) ≤ 2 :=
  boundedBuffer_invariant [["a\n"], ["b\n"]] 2 (by decide) (by decide)

/-! ## Claim C5: trim-count exactness -/

/-- C5 counterexample: with `currentLineCount = 1` (the empty document) and
a batch of 3 single-line events under `maxLines = 2`, the claim demands a
deletion of exactly `1 + 3 - 2 = 2` lines, which would leave exactly
`maxLines = 2` lines; but the delete range refers to the pre-edit document
and gets clamped to it, so nothing is evicted and the result has 4 lines. -/
theorem trimOldestLines_cex :
    lineCount ([""] : List String) + (["a\n", "b\n", "c\n"] : List String).length > 2
    ∧ updateTextDocumentWithNewLogEvents ["a\n", "b\n", "c\n"] [""] 2 = ["a", "b", "c", ""]
    ∧ lineCount (updateTextDocumentWithNewLogEvents ["a\n", "b\n", "c\n"] [""] 2) ≠ 2 := by
  refine ⟨by decide, by decide, by decide⟩

/-- C5 amended: for batches of single-display-line events (so that the
code's `numNewLines = formattedLogEvents.length` coincides with the number
of display lines contributed), (a) when
`currentLineCount + newLineCount ≤ maxLines` no lines are deleted — the
edit is a pure append; (b) when the excess
`numLinesToTrim = currentLineCount + newLineCount - maxLines` is positive
but smaller than the current line count, exactly that many lines are
deleted from the start of the buffer and the result has exactly
`maxLines` lines.  (When the excess reaches the current line count the
delete is clamped and removes fewer lines than the claim states.) -/
theorem trimOldestLines_exact (evs d : List String) (m : Nat) (hd : d ≠ [])
    (hs : ∀ s ∈ evs, isSingleDisplayLine s) :
    (d.length + evs.length ≤ m →
      updateTextDocumentWithNewLogEvents evs d m = evs.foldl insertEventAtEnd d ∧
      lineCount (updateTextDocumentWithNewLogEvents evs d m) = d.length + evs.length)
    ∧ (d.length + evs.length > m → d.length + evs.length - m < d.length →
      updateTextDocumentWithNewLogEvents evs d m =
        evs.foldl insertEventAtEnd (d.drop (d.length + evs.length - m)) ∧
      lineCount (updateTextDocumentWithNewLogEvents evs d m) = m) := by
  constructor
  · intro hle
    have heq : updateTextDocumentWithNewLogEvents evs d m = evs.foldl insertEventAtEnd d := by
      unfold updateTextDocumentWithNewLogEvents
      rw [if_neg (by omega)]
    refine ⟨heq, ?_⟩
    rw [lineCount, heq, (foldl_insertEventAtEnd_spec evs d hd hs).1]
  · intro hgt hlt
    have heq : updateTextDocumentWithNewLogEvents evs d m =
        evs.foldl insertEventAtEnd (d.drop (d.length + evs.length - m)) := by
      unfold updateTextDocumentWithNewLogEvents trimOldestLines deletePrefixLines
      rw [if_pos hgt, if_pos hlt]
    have hdrop_ne : d.drop (d.length + evs.length - m) ≠ [] := by
      rw [← List.length_pos, List.length_drop]
      omega
    refine ⟨heq, ?_⟩
    rw [lineCount, heq, (foldl_insertEventAtEnd_spec evs _ hdrop_ne hs).1,
      List.length_drop]
    omega

/-- Witness for C5 amended: a two-line document plus one event under
`maxLines = 2` evicts exactly one line, leaving exactly two. -/
theorem trimOldestLines_exact_witness :
    updateTextDocumentWithNewLogEvents ["a\n"] ["x", ""] 2 =
      (["a\n"] : List String).foldl insertEventAtEnd ((["x", ""] : List String).drop 1) ∧
    lineCount (updateTextDocumentWithNewLogEvents ["a\n"] ["x", ""] 2) = 2 := by
  have h := (trimOldestLines_exact ["a\n"] ["x", ""] 2 (by decide) (by decide)).2
    (by decide) (by decide)
  exact ⟨by decide, h.2⟩

/-! ## Claim C7: scroll decisions -/

/-- C7 counterexample: an editor at the bottom of the one-line empty
document is (correctly) chosen for scrolling, but after the batch is
applied the revealed range is the single position at line
`lineCount - 2 = 0` — it does NOT include the new last line of the buffer
(line `lineCount - 1 = 1`), contrary to the claim that the revealed range
includes the new last line. -/
theorem scroll_reveal_cex :
    (handleSessionUpdateScroll ["a\n"] [""] 10 [⟨0, ⟨⟨0, 0⟩, ⟨0, 0⟩⟩⟩] 0).2 =
      [(⟨0, ⟨⟨0, 0⟩, ⟨0, 0⟩⟩⟩, some ⟨⟨0, 0⟩, ⟨0, 0⟩⟩)]
    ∧ lineCount (handleSessionUpdateScroll ["a\n"] [""] 10 [⟨0, ⟨⟨0, 0⟩, ⟨0, 0⟩⟩⟩] 0).1 = 2
    ∧ Range.containsPos ⟨⟨0, 0⟩, ⟨0, 0⟩⟩ ⟨2 - 1, 0⟩ = false := by
  refine ⟨by decide, by decide, by decide⟩

/-- C7 amended: for a non-empty batch, each visible editor of the session
document is scrolled iff its visible range contained the document's last
line BEFORE the mutation; a scrolled editor gets a reveal of the single
position at line `lineCount - 2` of the post-mutation document (the last
content line, one above the trailing empty line) — not the final document
line; every other editor gets no reveal, and the editors themselves (with
their visible ranges) pass through unchanged. -/
theorem scroll_decision_pre_mutation (evs d : List String) (m : Nat)
    (editors : List TextEditor) (docId : Nat) (h : evs ≠ []) :
    (handleSessionUpdateScroll evs d m editors docId).1 =
      updateTextDocumentWithNewLogEvents evs d m
    ∧ (handleSessionUpdateScroll evs d m editors docId).2 =
      editors.map (fun e =>
        (e,
          if e.document == docId && e.visibleRange.containsPos ⟨d.length - 1, 0⟩ then
            some (scrollTextEditorToBottom (updateTextDocumentWithNewLogEvents evs d m))
          else none)) := by
  have hlen : evs.length ≠ 0 := by
    simpa using fun hz => h (List.length_eq_zero.mp hz)
  have hmem : ∀ e ∈ editors, (e ∈ getTextEditorsToScroll d editors docId) ↔
      ((e.document == docId) = true ∧
        (e.visibleRange.containsPos ⟨d.length - 1, 0⟩) = true) := by
    intro e he
    simp only [getTextEditorsToScroll, getVisibleEditorsForSession, List.mem_filter, he,
      shouldScrollTextEditor, true_and]
  unfold handleSessionUpdateScroll
  rw [if_pos hlen]
  refine ⟨rfl, ?_⟩
  apply List.map_congr_left
  intro e he
  by_cases hc : (e.document == docId && e.visibleRange.containsPos ⟨d.length - 1, 0⟩) = true
  · rw [if_pos ((hmem e he).mpr (Bool.and_eq_true _ _ ▸ hc)), if_pos hc]
  · rw [if_neg (fun hmm => hc (Bool.and_eq_true _ _ ▸ (hmem e he).mp hmm)), if_neg hc]

/-- Witness for C7 amended, at a concrete batch, document and pair of
editors (one at the bottom, one scrolled away). -/
theorem scroll_decision_pre_mutation_witness :
    (handleSessionUpdateScroll ["a\n"] ["x", ""] 10
        [⟨0, ⟨⟨0, 0⟩, ⟨1, 0⟩⟩⟩, ⟨0, ⟨⟨0, 0⟩, ⟨0, 0⟩⟩⟩] 0).1 =
      updateTextDocumentWithNewLogEvents ["a\n"] ["x", ""] 10
    ∧ (handleSessionUpdateScroll ["a\n"] ["x", ""] 10
        [⟨0, ⟨⟨0, 0⟩, ⟨1, 0⟩⟩⟩, ⟨0, ⟨⟨0, 0⟩, ⟨0, 0⟩⟩⟩] 0).2 =
      ([⟨0, ⟨⟨0, 0⟩, ⟨1, 0⟩⟩⟩, ⟨0, ⟨⟨0, 0⟩, ⟨0, 0⟩⟩⟩] : List TextEditor).map (fun e =>
        (e,
          if e.document == 0 &&
              e.visibleRange.containsPos ⟨(["x", ""] : List String).length - 1, 0⟩ then
            some (scrollTextEditorToBottom
              (updateTextDocumentWithNewLogEvents ["a\n"] ["x", ""] 10))
          else none)) :=
  scroll_decision_pre_mutation ["a\n"] ["x", ""] 10
    [⟨0, ⟨⟨0, 0⟩, ⟨1, 0⟩⟩⟩, ⟨0, ⟨⟨0, 0⟩, ⟨0, 0⟩⟩⟩] 0 (by decide)

/-! ## Key derivation: structure of the derived URI string -/

theorem string_data_inj {s t : String} (h : s.data = t.data) : s = t := by
  cases s with
  | mk l =>
    cases t with
    | mk l' =>
      have h' : l = l' := h
      rw [h']

theorem createLiveTailURIFromArgs_data (c : LiveTailSessionConfiguration)
    (f : LogStreamFilterResponse) (hf : c.logStreamFilter = some f) :
    (createLiveTailURIFromArgs c).data =
      CLOUDWATCH_LOGS_LT_SCHEME.data ++ ':' :: (c.region.data ++ ':' ::
        (c.logGroupName.data ++
          (filterTailData f ++ patternTailData c.logEventFilterPattern))) := by
  have hcolon : (":" : String).data = [':'] := rfl
  unfold createLiveTailURIFromArgs filterTailData patternTailData
  rw [hf]
  by_cases ht : f.type ≠ LogStreamFilterType.ALL <;>
    by_cases hp : jsTruthyString c.logEventFilterPattern = true <;>
      simp [ht, hp, String.data_append, hcolon, List.append_assoc]

/-- Splitting lemma for `':'`-separated chunks: if the leading chunks are
colon-free and the remainders are empty or start with the separator, the
chunks and remainders agree componentwise. -/
theorem chunk_append_inj (a : List Char) : ∀ (b x y : List Char), ':' ∉ a → ':' ∉ b →
    (x = [] ∨ ∃ x', x = ':' :: x') → (y = [] ∨ ∃ y', y = ':' :: y') →
    a ++ x = b ++ y → a = b ∧ x = y := by
  induction a with
  | nil =>
    intro b x y _ hb hx _ h
    cases b with
    | nil => exact ⟨rfl, by simpa using h⟩
    | cons cb b' =>
      exfalso
      rcases hx with rfl | ⟨x', rfl⟩
      · simp at h
      · rw [List.nil_append, List.cons_append] at h
        injection h with h1 _
        exact hb (by rw [← h1]; exact List.mem_cons_self ':' b')
  | cons ca a' ih =>
    intro b x y ha hb hx hy h
    cases b with
    | nil =>
      exfalso
      rcases hy with rfl | ⟨y', rfl⟩
      · simp at h
      · rw [List.nil_append, List.cons_append] at h
        injection h with h1 _
        exact ha (by rw [h1]; exact List.mem_cons_self ':' a')
    | cons cb b' =>
      rw [List.cons_append, List.cons_append] at h
      injection h with h1 h2
      have ha' : ':' ∉ a' := fun hm => ha (List.mem_cons_of_mem _ hm)
      have hb' : ':' ∉ b' := fun hm => hb (List.mem_cons_of_mem _ hm)
      obtain ⟨hab, hxy⟩ := ih b' x y ha' hb' hx hy h2
      exact ⟨by rw [h1, hab], hxy⟩

theorem filterTailData_cons (f : LogStreamFilterResponse) :
    ∃ t, filterTailData f = ':' :: t := by
  unfold filterTailData
  split <;> exact ⟨_, rfl⟩

theorem patternTailData_shape (p : Option String) :
    patternTailData p = [] ∨ ∃ t, patternTailData p = ':' :: t := by
  unfold patternTailData
  split
  · exact Or.inr ⟨_, rfl⟩
  · exact Or.inl rfl

theorem value_colonFree (t : LogStreamFilterType) : ':' ∉ t.value.data := by
  cases t <;> decide

theorem value_data_inj {t1 t2 : LogStreamFilterType}
    (h : t1.value.data = t2.value.data) : t1 = t2 := by
  cases t1 <;> cases t2 <;> first
    | rfl
    | (exfalso; revert h; decide)

theorem patternTailData_inj (p1 p2 : Option String)
    (h1 : goodPattern p1) (h2 : goodPattern p2)
    (h : patternTailData p1 = patternTailData p2) : p1 = p2 := by
  rcases h1 with rfl | ⟨s1, rfl, hs1, -⟩ <;> rcases h2 with rfl | ⟨s2, rfl, hs2, -⟩
  · rfl
  · exfalso
    simp [patternTailData, jsTruthyString, hs2] at h
  · exfalso
    simp [patternTailData, jsTruthyString, hs1] at h
  · simp only [patternTailData, jsTruthyString] at h
    rw [if_pos (by simpa using hs1), if_pos (by simpa using hs2)] at h
    injection h with _ hdata
    exact congrArg some (string_data_inj hdata)

theorem filterTail_append (f : LogStreamFilterResponse) (pat : List Char) :
    filterTailData f ++ pat = ':' :: (f.type.value.data ++ filterRestData f pat) := by
  unfold filterTailData filterRestData
  split <;> simp [List.append_assoc]

theorem filterRest_shape (f : LogStreamFilterResponse) (p : Option String) :
    filterRestData f (patternTailData p) = [] ∨
      ∃ t, filterRestData f (patternTailData p) = ':' :: t := by
  unfold filterRestData
  split
  · exact Or.inr ⟨_, rfl⟩
  · exact patternTailData_shape p

/-! ## Claim C3: key derivation -/

/-- C3 counterexample: two configurations that differ in log group and in
event filter pattern derive the SAME key, because the derivation joins
components with `':'` without escaping: `{logGroup "g", pattern "p"}` and
`{logGroup "g:p", no pattern}` both derive `scheme:r:g:p`. -/
theorem createLiveTailURI_collision_cex :
    createLiveTailURIFromArgs ⟨"g", none, some "p", "r"⟩ =
      createLiveTailURIFromArgs ⟨"g:p", none, none, "r"⟩
    ∧ ("g" : String) ≠ "g:p" ∧ (some "p" : Option String) ≠ none := by
  refine ⟨by decide, by decide, by decide⟩

/-- C3 amended: key derivation is a pure function — equal configurations
derive equal keys; a stream filter of `{type: All}` and one of
`{type: Prefix, value: ""}` derive distinct keys; and while the derivation
is NOT injective over arbitrary distinct configurations (see the
collision above), it is injective on configurations that carry a stream
filter (as the wizard always produces), whose region, log group, filter
value and pattern are free of the `':'` separator, and whose pattern is
absent or non-empty. -/
theorem createLiveTailURI_key_properties :
    (∀ c1 c2 : LiveTailSessionConfiguration, c1 = c2 →
      createLiveTailURIFromArgs c1 = createLiveTailURIFromArgs c2)
    ∧ (∀ (region logGroup : String) (p : Option String),
      createLiveTailURIFromArgs
          ⟨logGroup, some ⟨none, LogStreamFilterType.ALL⟩, p, region⟩ ≠
        createLiveTailURIFromArgs
          ⟨logGroup, some ⟨some "", LogStreamFilterType.PREFIX⟩, p, region⟩)
    ∧ (∀ c1 c2 : LiveTailSessionConfiguration,
      GoodConfiguration c1 → GoodConfiguration c2 →
      createLiveTailURIFromArgs c1 = createLiveTailURIFromArgs c2 → c1 = c2) := by
  refine ⟨fun c1 c2 h => by rw [h], ?_, ?_⟩
  · intro region logGroup p h
    have hd := congrArg String.data h
    rw [createLiveTailURIFromArgs_data _ ⟨none, LogStreamFilterType.ALL⟩ rfl,
      createLiveTailURIFromArgs_data _ ⟨some "", LogStreamFilterType.PREFIX⟩ rfl] at hd
    have h1 := List.append_cancel_left hd
    injection h1 with _ h2
    have h3 := List.append_cancel_left h2
    injection h3 with _ h4
    have h5 := List.append_cancel_left h4
    rw [filterTail_append, filterTail_append] at h5
    injection h5 with _ h6
    obtain ⟨hval, -⟩ := chunk_append_inj _ _ _ _
      (value_colonFree LogStreamFilterType.ALL)
      (value_colonFree LogStreamFilterType.PREFIX)
      (filterRest_shape ⟨none, LogStreamFilterType.ALL⟩ p)
      (filterRest_shape ⟨some "", LogStreamFilterType.PREFIX⟩ p) h6
    exact absurd (value_data_inj hval) (by decide)
  · intro c1 c2 g1 g2 hkey
    obtain ⟨hr1, hg1, ⟨f1, hf1, hfg1⟩, hp1⟩ := g1
    obtain ⟨hr2, hg2, ⟨f2, hf2, hfg2⟩, hp2⟩ := g2
    have hd := congrArg String.data hkey
    rw [createLiveTailURIFromArgs_data c1 f1 hf1,
      createLiveTailURIFromArgs_data c2 f2 hf2] at hd
    have h1 := List.append_cancel_left hd
    injection h1 with _ h2
    obtain ⟨hrd, h3⟩ := chunk_append_inj c1.region.data c2.region.data _ _ hr1 hr2
      (Or.inr ⟨_, rfl⟩) (Or.inr ⟨_, rfl⟩) h2
    have hregion : c1.region = c2.region := string_data_inj hrd
    injection h3 with _ h4
    obtain ⟨t1, ht1⟩ := filterTailData_cons f1
    obtain ⟨t2, ht2⟩ := filterTailData_cons f2
    obtain ⟨hgd, h5⟩ := chunk_append_inj c1.logGroupName.data c2.logGroupName.data _ _
      hg1 hg2
      (Or.inr ⟨t1 ++ patternTailData c1.logEventFilterPattern, by rw [ht1]; rfl⟩)
      (Or.inr ⟨t2 ++ patternTailData c2.logEventFilterPattern, by rw [ht2]; rfl⟩) h4
    have hgroup : c1.logGroupName = c2.logGroupName := string_data_inj hgd
    rw [filterTail_append, filterTail_append] at h5
    injection h5 with _ h6
    obtain ⟨hval, hrest⟩ := chunk_append_inj _ _ _ _
      (value_colonFree f1.type) (value_colonFree f2.type)
      (filterRest_shape f1 c1.logEventFilterPattern)
      (filterRest_shape f2 c2.logEventFilterPattern) h6
    have htype : f1.type = f2.type := value_data_inj hval
    by_cases hall : f1.type = LogStreamFilterType.ALL
    · rcases hfg1 with ⟨-, hv1⟩ | ⟨hne, -⟩
      swap
      · exact absurd hall hne
      rcases hfg2 with ⟨-, hv2⟩ | ⟨hne, -⟩
      swap
      · exact absurd (htype ▸ hall) hne
      rw [filterRestData, if_neg (by simp [hall]),
        filterRestData, if_neg (by simp [← htype, hall])] at hrest
      have hpat : c1.logEventFilterPattern = c2.logEventFilterPattern :=
        patternTailData_inj _ _ hp1 hp2 hrest
      have hfeq : f1 = f2 := by
        cases f1
        cases f2
        simp_all
      calc c1 = ⟨c1.logGroupName, c1.logStreamFilter, c1.logEventFilterPattern,
                  c1.region⟩ := rfl
        _ = ⟨c2.logGroupName, c2.logStreamFilter, c2.logEventFilterPattern,
              c2.region⟩ := by rw [hgroup, hf1, hf2, hfeq, hpat, hregion]
        _ = c2 := rfl
    · rcases hfg1 with ⟨heq, -⟩ | ⟨-, v1, hv1, hcf1⟩
      · exact absurd heq hall
      rcases hfg2 with ⟨heq, -⟩ | ⟨-, v2, hv2, hcf2⟩
      · exact absurd (htype ▸ heq) hall
      rw [filterRestData, if_pos (by simpa using hall),
        filterRestData, if_pos (by simp [← htype, hall])] at hrest
      injection hrest with _ hrest'
      rw [hv1, hv2] at hrest'
      obtain ⟨hvd, hpd⟩ := chunk_append_inj v1.data v2.data _ _ hcf1 hcf2
        (patternTailData_shape c1.logEventFilterPattern)
        (patternTailData_shape c2.logEventFilterPattern) hrest'

      have hpat : c1.logEventFilterPattern = c2.logEventFilterPattern :=
        patternTailData_inj _ _ hp1 hp2 hpd
      have hfeq : f1 = f2 := by
        cases f1
        cases f2
        simp_all [string_data_inj hvd]
      calc c1 = ⟨c1.logGroupName, c1.logStreamFilter, c1.logEventFilterPattern,
                  c1.region⟩ := rfl
        _ = ⟨c2.logGroupName, c2.logStreamFilter, c2.logEventFilterPattern,
              c2.region⟩ := by rw [hgroup, hf1, hf2, hfeq, hpat, hregion]
        _ = c2 := rfl

/-- Witness for C3 amended: the restricted injectivity applied at a
concrete well-formed configuration. -/
theorem createLiveTailURI_key_properties_witness :
    (⟨"g", some ⟨none, LogStreamFilterType.ALL⟩, none, "r"⟩ :
        LiveTailSessionConfiguration) =
      ⟨"g", some ⟨none, LogStreamFilterType.ALL⟩, none, "r"⟩ :=
  createLiveTailURI_key_properties.2.2 _ _
    ⟨by decide, by decide,
      ⟨⟨none, LogStreamFilterType.ALL⟩, rfl, Or.inl ⟨rfl, rfl⟩⟩, Or.inl rfl⟩
    ⟨by decide, by decide,
      ⟨⟨none, LogStreamFilterType.ALL⟩, rfl, Or.inl ⟨rfl, rfl⟩⟩, Or.inl rfl⟩
    rfl
